import Mathlib

/-!
Verification development for the acquisition core of the Reel media
orchestrator.  The Go sources are shallowly embedded: pure helpers become
Lean functions, the SQLite-backed repository becomes explicit state passing
over a `DB` record, and fallible statements take explicit failure flags.
Machine integers are modelled as `Int`/`Nat` (no arithmetic here overflows
64 bits), `float64` quantities that are only compared (progress, seed
ratios) are modelled as `ℚ`, and `time.Time` values that are only compared
are modelled as `Int` instants.
-/

namespace Reel

/-! ## Go string primitives

`strLower` models `strings.ToLower` (titles handled by the selector are
ASCII; `Char.toLower` agrees with Go there).  `goContains s sub` models
`strings.Contains(s, sub)`. -/

def strLower (s : String) : String := ⟨s.data.map Char.toLower⟩

def listPrefixOf : List Char → List Char → Bool
  | [], _ => true
  | _ :: _, [] => false
  | a :: as, b :: bs => a == b && listPrefixOf as bs

def listInfixOf (needle : List Char) : List Char → Bool
  | [] => listPrefixOf needle []
  | b :: bs => listPrefixOf needle (b :: bs) || listInfixOf needle bs

def goContains (s sub : String) : Bool := listInfixOf sub.data s.data

/-- Character class `\w` of Go's RE2 (`[0-9A-Za-z_]`). -/
def isWordChar (c : Char) : Bool := c.isAlphanum || c == '_'

/-- Character class `\s` of Go's RE2 (`[\t\n\f\r ]`). -/
def isSpaceCharGo (c : Char) : Bool :=
  c == ' ' || c == '\t' || c == '\n' || c == '\r' || c == '\x0c'

/-- Models `strings.TrimSpace` on the ASCII strings the selector sees. -/
def trimSpaceGo (s : String) : String :=
  ⟨(s.data.dropWhile isSpaceCharGo).reverse.dropWhile isSpaceCharGo |>.reverse⟩

/-- Splits a string into its maximal runs of non-whitespace characters.
Models both `strings.Fields` and splitting a trimmed string on `\s+`
(the two agree on every input the selector feeds them). -/
def splitWSChars : List Char → List Char → List String
  | acc, [] => if acc.isEmpty then [] else [⟨acc.reverse⟩]
  | acc, c :: cs =>
    if isSpaceCharGo c then
      if acc.isEmpty then splitWSChars [] cs
      else ⟨acc.reverse⟩ :: splitWSChars [] cs
    else splitWSChars (c :: acc) cs

def splitWSGo (s : String) : List String := splitWSChars [] s.data

/-! ## Selector constants (internal/core/manager.go)

`QUALITY_SCORES` is a Go map iterated only to accumulate a sum, so a fixed
association list is a faithful model.  `RESOLUTION_RANK` lookups use Go's
map semantics: a missing key yields the zero value `0`. -/

def QUALITY_SCORES : List (String × Int) :=
  [("4k", 8), ("2160p", 8), ("uhd", 8),
   ("1440p", 6), ("2k", 6),
   ("1080p", 5), ("fhd", 5),
   ("720p", 4), ("hd", 4),
   ("480p", 3), ("sd", 2),
   ("360p", 1),
   ("xvid", 1),
   ("remux", 10),
   ("bluray", 8), ("blu-ray", 8), ("bdrip", 8), ("brrip", 6),
   ("webdl", 7), ("web-dl", 7), ("web", 6), ("webrip", 5),
   ("hdtv", 4), ("dvdrip", 3),
   ("cam", 1), ("ts", 1),
   ("av1", 5), ("x265", 3), ("h265", 3), ("hevc", 3),
   ("x264", 2), ("h264", 2), ("avc", 2),
   ("atmos", 3), ("truehd", 3), ("dts-hd", 3), ("dts-x", 3),
   ("dts", 2), ("ac3", 1), ("aac", 1),
   ("repack", 1), ("proper", 1), ("extended", 1), ("uncut", 1), ("directors", 1),
   ("hdr", 2), ("hdr10", 2), ("dolbyvision", 3), ("dv", 3), ("imax", 2)]

def RESOLUTION_SYNONYMS (res : String) : List String :=
  if res == "4320p" then ["4320p", "8k"]
  else if res == "2160p" then ["2160p", "4k", "uhd"]
  else if res == "1440p" then ["1440p", "2k"]
  else if res == "1080p" then ["1080p", "fhd"]
  else if res == "720p" then ["720p", "hd", "hdtv", "xvid"]
  else if res == "480p" then ["480p", "576p", "sd", "msd", "dvdrip", "ntsc", "pal"]
  else if res == "360p" then ["360p"]
  else []

def RESOLUTION_RANK_assoc : List (String × Int) :=
  [("360p", 0), ("480p", 1), ("720p", 2), ("1080p", 3),
   ("1440p", 4), ("2160p", 5), ("4320p", 6)]

/-- Go map access `RESOLUTION_RANK[q]`: zero value `0` for a missing key. -/
def RESOLUTION_RANK_get (q : String) : Int :=
  match RESOLUTION_RANK_assoc.find? (fun kv => kv.1 == q) with
  | some kv => kv.2
  | none => 0

/-- Ordered from highest to lowest for matching (source order). -/
def SUPPORTED_RESOLUTIONS : List String :=
  ["2160p", "1440p", "1080p", "720p", "480p", "360p"]

/-- Models `getQualityScore` (manager.go): weights of every keyword that is
a substring of the lowercased title accumulate.  The Go map iteration
order is arbitrary but the sum is order-independent. -/
def getQualityScore (title : String) : Int :=
  let lowerTitle := strLower title
  QUALITY_SCORES.foldl
    (fun score kv => if goContains lowerTitle kv.1 then score + kv.2 else score) 0

/-- Models `getResolutionRank` (torrent_selector.go): walk the supported
resolutions from highest to lowest and return the rank of the first whose
synonym occurs in the lowercased title, `-1` when none does. -/
def getResolutionRankWalk (lowerTitle : String) : List String → Int
  | [] => -1
  | res :: rest =>
    if (RESOLUTION_SYNONYMS res).any (fun syn => goContains lowerTitle (strLower syn)) then
      RESOLUTION_RANK_get res
    else getResolutionRankWalk lowerTitle rest

def getResolutionRank (title : String) : Int :=
  getResolutionRankWalk (strLower title) SUPPORTED_RESOLUTIONS

/-! ## Data model (internal/database/models, internal/clients/indexers) -/

inductive MediaType
  | movie
  | tvshow
  | anime
deriving DecidableEq, Repr, Inhabited

inductive MediaStatus
  | pending
  | searching
  | downloading
  | downloaded
  | failed
  | skipped
  | monitoring
  | postProcessing
  | tba
  | archived
deriving DecidableEq, Repr, Inhabited

structure Media where
  id : Int
  type : MediaType
  tmdbId : Option Int
  tvShowId : Option Int
  title : String
  year : Int
  minQuality : String
  maxQuality : String
  status : MediaStatus
  torrentHash : Option String
  torrentName : Option String
  progress : ℚ
  completedAt : Option Int
  autoDownload : Bool
deriving DecidableEq, Repr, Inhabited

structure IndexerResult where
  title : String
  size : Int
  seeders : Int
  leechers : Int
  downloadURL : String
  publishDate : Int
  indexer : String
  score : Int
deriving DecidableEq, Repr, Inhabited

/-- The automation slice of the configuration.  `keep_torrents_seed_ratio`
is a `float64` in Go; only order comparisons are performed on it, so `ℚ`
models it faithfully. -/
structure AutomationCfg where
  minSeeders : Int
  rejectCommon : List String
  keepTorrentsForDays : Int
  keepTorrentsSeedRatioVal : ℚ
deriving DecidableEq, Repr, Inhabited

/-! ## Filter stages (internal/core/torrent_selector.go)

Per-stage drop counters (`FilterStats`) and the optional filter log only
observe the run, they never influence which candidates survive, so they
are omitted from the embedding.

`filterByRejectPatterns` consults the `regexp` library; the compiled
case-insensitive match is abstracted as an oracle `rm pattern title`.
A pattern that fails to compile is skipped in Go, which coincides with an
oracle returning `false` for it.  `filterByEpisodeNumber` likewise matches
six concrete regular expressions built from season/episode; the predicate
"the title matches one of them" is abstracted as `em season episode title`. -/

def filterByRejectPatterns (rm : String → String → Bool)
    (rejectCommon : List String) (results : List IndexerResult) : List IndexerResult :=
  results.filter (fun r => !(rejectCommon.any (fun p => rm p r.title)))

def filterByEpisodeNumber (em : Int → Int → String → Bool)
    (results : List IndexerResult) (season episode : Int) : List IndexerResult :=
  results.filter (fun r => em season episode r.title)

def filterByQuality (results : List IndexerResult)
    (minQuality maxQuality : String) : List IndexerResult :=
  let minRank := RESOLUTION_RANK_get minQuality
  let maxRank := RESOLUTION_RANK_get maxQuality
  results.filter (fun r =>
    minRank ≤ getResolutionRank r.title && getResolutionRank r.title ≤ maxRank)

def filterByMinSeeders (minSeeders : Int) (results : List IndexerResult) : List IndexerResult :=
  results.filter (fun r => minSeeders ≤ r.seeders)

/-- Fixed English stop-word list of `extractMeaningfulWords`. -/
def stopWords : List String :=
  ["the", "a", "an", "and", "or", "but",
   "in", "on", "at", "to", "for", "of",
   "with", "by", "from", "up", "about", "into"]

/-- Inserts a space between a lowercase letter followed by an uppercase one,
exactly as `regexp.MustCompile` on the pair-pattern with `ReplaceAllString`
and a spaced template does (matches are non-overlapping; a scan resuming
after the uppercase letter can never start a new match there, so the
pairwise recursion agrees with RE2). -/
def camelSpace : List Char → List Char
  | [] => []
  | [c] => [c]
  | c1 :: c2 :: rest =>
    if c1.isLower && c2.isUpper then c1 :: ' ' :: camelSpace (c2 :: rest)
    else c1 :: camelSpace (c2 :: rest)

def splitCamelCase (word : String) : List String :=
  let parts := splitWSGo ⟨camelSpace word.data⟩
  if parts.length > 1 then parts else [word]

/-- Models `extractMeaningfulWords`: strip punctuation (keep `\w` and
whitespace), split on whitespace, keep words longer than one character that
are not stop words, additionally keep CamelCase parts, and deduplicate
case-insensitively keeping first occurrences.  Go measures `len(word)` in
bytes; all processed text is ASCII so character count agrees. -/
def extractMeaningfulWords (title : String) : List String :=
  let cleanTitle : String := ⟨title.data.filter (fun c => isWordChar c || isSpaceCharGo c)⟩
  let words := splitWSGo (trimSpaceGo cleanTitle)
  let meaningful := words.foldl
    (fun acc word =>
      if word.length > 1 then
        let camelParts := splitCamelCase word
        let acc :=
          if !(stopWords.contains (strLower word)) then acc ++ [word] else acc
        if camelParts.length > 1 then
          acc ++ camelParts.filter
            (fun part => part.length > 1 && !(stopWords.contains (strLower part)))
        else acc
      else acc) []
  (meaningful.foldl
    (fun (st : List String × List String) w =>
      let lw := strLower w
      if st.1.contains lw then st else (st.1 ++ [lw], st.2 ++ [w])) ([], [])).2

/-- One candidate passes the series-name filter iff some search term
matches by one of the three strategies of `filterBySeriesName`. -/
def seriesNameMatches (searchTerms : List String) (title : String) : Bool :=
  let titleLower := strLower title
  searchTerms.any (fun term =>
    ((extractMeaningfulWords term).all (fun w => goContains titleLower (strLower w)))
    || goContains titleLower (strLower term)
    || (let camelParts := splitCamelCase term
        camelParts.length > 1 &&
          goContains titleLower (strLower (String.intercalate " " camelParts))))

def filterBySeriesName (results : List IndexerResult)
    (searchTerms : List String) : List IndexerResult :=
  let allMeaningfulWords := searchTerms.foldl
    (fun acc term => acc ++ extractMeaningfulWords term) []
  if allMeaningfulWords.length == 0 then results
  else results.filter (fun r => seriesNameMatches searchTerms r.title)

/-! ## Go `sort.Slice` (pdqsort)

`FilterAndScoreTorrents` sorts with `sort.Slice`, which Go implements by
`pdqsort_func` over a less/swap pair (`sort/zsortfunc.go`), with
`limit := bits.Len(uint(length))`.  The embedding below translates that
algorithm loop by loop; imperative loops carry an explicit fuel argument
that callers instantiate with a bound larger than the loop can iterate
(each loop moves an index monotonically inside the slice), so the fuel
never runs out on any call the wrapper makes. -/

section GoSort

variable {α : Type} (less : α → α → Bool) [Inhabited α]

def aget (arr : Array α) (i : Nat) : α := arr.getD i default

def aswap (arr : Array α) (i j : Nat) : Array α :=
  if h1 : i < arr.size then
    if h2 : j < arr.size then arr.swap ⟨i, h1⟩ ⟨j, h2⟩ else arr
  else arr

def lessAt (arr : Array α) (i j : Nat) : Bool := less (aget arr i) (aget arr j)

def insSortInner : Nat → Array α → Nat → Nat → Array α
  | 0, arr, _, _ => arr
  | fuel+1, arr, a, j =>
    if a < j && lessAt less arr j (j-1) then insSortInner fuel (aswap arr j (j-1)) a (j-1)
    else arr

def insSortOuter : Nat → Array α → Nat → Nat → Nat → Array α
  | 0, arr, _, _, _ => arr
  | fuel+1, arr, a, b, i =>
    if i < b then insSortOuter fuel (insSortInner less (i+1) arr a i) a b (i+1) else arr

/-- Models `insertionSort_func(data, a, b)`. -/
def insertionSortRange (arr : Array α) (a b : Nat) : Array α :=
  insSortOuter less (b+1) arr a b (a+1)

/-- Models `siftDown_func(data, lo, hi, first)` with `root` starting at `lo`. -/
def siftDownGo : Nat → Array α → Nat → Nat → Nat → Array α
  | 0, arr, _, _, _ => arr
  | fuel+1, arr, root, hi, first =>
    let child := 2*root + 1
    if hi ≤ child then arr
    else
      let child :=
        if child + 1 < hi && lessAt less arr (first+child) (first+child+1) then child + 1
        else child
      if !(lessAt less arr (first+root) (first+child)) then arr
      else siftDownGo fuel (aswap arr (first+root) (first+child)) child hi first

def heapBuild : Nat → Array α → Nat → Nat → Nat → Array α
  | 0, arr, _, _, _ => arr
  | fuel+1, arr, i, hi, first =>
    let arr := siftDownGo less (hi+1) arr i hi first
    if i = 0 then arr else heapBuild fuel arr (i-1) hi first

def heapPop : Nat → Array α → Nat → Nat → Array α
  | 0, arr, _, _ => arr
  | fuel+1, arr, i, first =>
    let arr := aswap arr first (first + i)
    let arr := siftDownGo less (i+1) arr 0 i first
    if i = 0 then arr else heapPop fuel arr (i-1) first

/-- Models `heapSort_func(data, a, b)`.  `pdqsort` only reaches it on
ranges longer than 12; the `hi = 0` guard returns the array unchanged,
which is also what the Go loops compute there. -/
def heapSortRange (arr : Array α) (a b : Nat) : Array α :=
  let first := a
  let hi := b - a
  if hi = 0 then arr
  else
    let arr := heapBuild less (hi+1) arr ((hi-1)/2) hi first
    heapPop less (hi+1) arr (hi-1) first

def reverseRangeGo : Nat → Array α → Nat → Nat → Array α
  | 0, arr, _, _ => arr
  | fuel+1, arr, i, j =>
    if i < j then reverseRangeGo fuel (aswap arr i j) (i+1) (j-1) else arr

def pisScan : Nat → Array α → Nat → Nat → Nat
  | 0, _, i, _ => i
  | fuel+1, arr, i, b =>
    if i < b && !(lessAt less arr i (i-1)) then pisScan fuel arr (i+1) b else i

def pisShiftLeft : Nat → Array α → Nat → Array α
  | 0, arr, _ => arr
  | fuel+1, arr, j =>
    if 1 ≤ j && lessAt less arr j (j-1) then pisShiftLeft fuel (aswap arr j (j-1)) (j-1)
    else arr

def pisShiftRight : Nat → Array α → Nat → Nat → Array α
  | 0, arr, _, _ => arr
  | fuel+1, arr, j, b =>
    if j < b && lessAt less arr j (j-1) then pisShiftRight fuel (aswap arr j (j-1)) (j+1) b
    else arr

def pisOuter : Nat → Array α → Nat → Nat → Nat → Array α × Bool
  | 0, arr, _, _, _ => (arr, false)
  | steps+1, arr, a, b, i =>
    let i := pisScan less (b+1) arr i b
    if i = b then (arr, true)
    else if b - a < 50 then (arr, false)
    else
      let arr := aswap arr i (i-1)
      let arr := if 2 ≤ i - a then pisShiftLeft less (i+1) arr (i-1) else arr
      let arr := if 2 ≤ b - i then pisShiftRight less (b+1) arr (i+1) b else arr
      pisOuter steps arr a b i

/-- Models `partialInsertionSort_func(data, a, b)` (`maxSteps = 5`,
`shortestShifting = 50`); the step counter is the recursion fuel. -/
def partialInsertionSortRange (arr : Array α) (a b : Nat) : Array α × Bool :=
  pisOuter less 5 arr a b (a+1)

inductive SortedHint
  | increasing
  | decreasing
  | unknown
deriving DecidableEq, Repr, Inhabited

/-- Models `order2_func`: orders two indices by the data under them,
counting a swap when they were inverted. -/
def order2 (arr : Array α) (i j swaps : Nat) : Nat × Nat × Nat :=
  if lessAt less arr j i then (j, i, swaps+1) else (i, j, swaps)

def median3 (arr : Array α) (i j k swaps : Nat) : Nat × Nat :=
  let (i1, j1, s1) := order2 less arr i j swaps
  let (j2, _, s2) := order2 less arr j1 k s1
  let (_, j3, s3) := order2 less arr i1 j2 s2
  (j3, s3)

def medianAdjacent (arr : Array α) (i swaps : Nat) : Nat × Nat :=
  median3 less arr (i-1) i (i+1) swaps

/-- Models `choosePivot_func` (`shortestNinther = 50`, `maxSwaps = 12`). -/
def choosePivot (arr : Array α) (a b : Nat) : Nat × SortedHint :=
  let l := b - a
  let i0 := a + l/4*1
  let j0 := a + l/4*2
  let k0 := a + l/4*3
  if 8 ≤ l then
    let (i1, j1, k1, s1) :=
      if 50 ≤ l then
        let (i1, sa) := medianAdjacent less arr i0 0
        let (j1, sb) := medianAdjacent less arr j0 sa
        let (k1, sc) := medianAdjacent less arr k0 sb
        (i1, j1, k1, sc)
      else (i0, j0, k0, 0)
    let (j2, s2) := median3 less arr i1 j1 k1 s1
    if s2 = 0 then (j2, SortedHint.increasing)
    else if s2 = 12 then (j2, SortedHint.decreasing)
    else (j2, SortedHint.unknown)
  else (j0, SortedHint.increasing)

/-- One step of Go's `xorshift` generator on a `uint64` state, modelled on
`Nat` with explicit reduction modulo `2^64`. -/
def xorshiftNext (r : Nat) : Nat :=
  let r := (Nat.xor r ((r <<< 13) % 2^64)) % 2^64
  let r := (Nat.xor r (r >>> 7)) % 2^64
  (Nat.xor r ((r <<< 17) % 2^64)) % 2^64

/-- Models `bits.Len` on a non-negative length. -/
def bitsLen (n : Nat) : Nat := if n = 0 then 0 else Nat.log2 n + 1

def nextPowerOfTwo (length : Nat) : Nat := 1 <<< bitsLen length

def breakPatternsSwapOne (arr : Array α) (a length idx rnd k : Nat) : Array α :=
  let other := Nat.land rnd (nextPowerOfTwo length - 1)
  let other := if length ≤ other then other - length else other
  aswap arr (idx - 1 + k) (a + other)

/-- Models `breakPatterns_func`, whose xorshift state is seeded with the
range length, so it is deterministic. -/
def breakPatternsGo (arr : Array α) (a b : Nat) : Array α :=
  let length := b - a
  if 8 ≤ length then
    let idx := a + (length/4)*2 - 1
    let r1 := xorshiftNext length
    let arr := breakPatternsSwapOne arr a length idx r1 0
    let r2 := xorshiftNext r1
    let arr := breakPatternsSwapOne arr a length idx r2 1
    let r3 := xorshiftNext r2
    breakPatternsSwapOne arr a length idx r3 2
  else arr

def partScanI : Nat → Array α → Nat → Nat → Nat → Nat
  | 0, _, _, i, _ => i
  | fuel+1, arr, a, i, j =>
    if i ≤ j && lessAt less arr i a then partScanI fuel arr a (i+1) j else i

def partScanJ : Nat → Array α → Nat → Nat → Nat → Nat
  | 0, _, _, _, j => j
  | fuel+1, arr, a, i, j =>
    if i ≤ j && !(lessAt less arr j a) then partScanJ fuel arr a i (j-1) else j

def partLoop : Nat → Array α → Nat → Nat → Nat → Array α × Nat × Nat
  | 0, arr, _, i, j => (arr, i, j)
  | fuel+1, arr, a, i, j =>
    let i := partScanI less (j+2) arr a i j
    let j := partScanJ less (j+2) arr a i j
    if j < i then (arr, i, j)
    else partLoop fuel (aswap arr i j) a (i+1) (j-1)

/-- Models `partition_func(data, a, b, pivot)`: Hoare-style partition with
the pivot value parked at index `a`, returning the new pivot position and
whether the range was already partitioned. -/
def partitionRange (arr : Array α) (a b pivot : Nat) : Array α × Nat × Bool :=
  let arr := aswap arr a pivot
  let i := a + 1
  let j := b - 1
  let i := partScanI less (j+2) arr a i j
  let j := partScanJ less (j+2) arr a i j
  if j < i then (aswap arr j a, j, true)
  else
    let arr := aswap arr i j
    let (arr, _, j) := partLoop less (b+2) arr a (i+1) (j-1)
    (aswap arr j a, j, false)

def peqScanI : Nat → Array α → Nat → Nat → Nat → Nat
  | 0, _, _, i, _ => i
  | fuel+1, arr, a, i, j =>
    if i ≤ j && !(lessAt less arr a i) then peqScanI fuel arr a (i+1) j else i

def peqScanJ : Nat → Array α → Nat → Nat → Nat → Nat
  | 0, _, _, _, j => j
  | fuel+1, arr, a, i, j =>
    if i ≤ j && lessAt less arr a j then peqScanJ fuel arr a i (j-1) else j

def peqLoop : Nat → Array α → Nat → Nat → Nat → Array α × Nat
  | 0, arr, _, i, _ => (arr, i)
  | fuel+1, arr, a, i, j =>
    let i := peqScanI less (j+2) arr a i j
    let j := peqScanJ less (j+2) arr a i j
    if j < i then (arr, i)
    else peqLoop fuel (aswap arr i j) a (i+1) (j-1)

/-- Models `partitionEqual_func(data, a, b, pivot)`. -/
def partitionEqualRange (arr : Array α) (a b pivot : Nat) : Array α × Nat :=
  let arr := aswap arr a pivot
  peqLoop less (b+2) arr a (a+1) (b-1)

/-- Models `pdqsort_func(data, a, b, limit)`.  The fuel dominates the
recursion depth: every recursive call shrinks `b - a` by at least one. -/
def pdqsortLoop : Nat → Array α → Nat → Nat → Nat → Bool → Bool → Array α
  | 0, arr, _, _, _, _, _ => arr
  | fuel+1, arr, a, b, limit, wasBalanced, wasPartitioned =>
    let length := b - a
    if length ≤ 12 then insertionSortRange less arr a b
    else if limit = 0 then heapSortRange less arr a b
    else
      let (arr, limit) :=
        if !wasBalanced then (breakPatternsGo arr a b, limit - 1) else (arr, limit)
      let (pivot, hint) := choosePivot less arr a b
      let (arr, pivot, hint) :=
        if hint == SortedHint.decreasing then
          (reverseRangeGo (b+1) arr a (b-1), (b - 1) - (pivot - a), SortedHint.increasing)
        else (arr, pivot, hint)
      let (arr, earlySorted) :=
        if wasBalanced && wasPartitioned && hint == SortedHint.increasing then
          partialInsertionSortRange less arr a b
        else (arr, false)
      if earlySorted then arr
      else if 0 < a && !(lessAt less arr (a-1) pivot) then
        let (arr, mid) := partitionEqualRange less arr a b pivot
        pdqsortLoop fuel arr mid b limit wasBalanced wasPartitioned
      else
        let (arr, mid, alreadyPartitioned) := partitionRange less arr a b pivot
        let wasPartitioned := alreadyPartitioned
        let leftLen := mid - a
        let rightLen := b - mid
        let balanceThreshold := length / 8
        let wasBalanced := decide (balanceThreshold ≤ min leftLen rightLen)
        if leftLen < rightLen then
          let arr := pdqsortLoop fuel arr a mid limit wasBalanced wasPartitioned
          pdqsortLoop fuel arr (mid+1) b limit wasBalanced wasPartitioned
        else
          let arr := pdqsortLoop fuel arr (mid+1) b limit wasBalanced wasPartitioned
          pdqsortLoop fuel arr a mid limit wasBalanced wasPartitioned

/-- Models `sort.Slice`: `limit := bits.Len(uint(length))`, then
`pdqsort_func(data, 0, length, limit)`. -/
def sortSliceGo (arr : Array α) : Array α :=
  pdqsortLoop less (arr.size + 4) arr 0 arr.size (bitsLen arr.size) true true

end GoSort

/-! ## Selector pipeline (FilterAndScoreTorrents, SelectBestTorrent) -/

/-- The comparator closure passed to `sort.Slice`:
`results[i].Score > results[j].Score`. -/
def scoreGreater (x y : IndexerResult) : Bool := y.score < x.score

def sortResultsByScore (results : List IndexerResult) : List IndexerResult :=
  (sortSliceGo scoreGreater results.toArray).toList

/-- Models `FilterAndScoreTorrents`: reject patterns, then (for shows and
anime with positive season and episode) episode-number and series-name
filters, then the quality window, then the seeder floor; survivors are
scored with `getQualityScore + Seeders` and sorted with `sort.Slice`
descending by score.  `rm` and `em` are the regex oracles described at the
filter stages. -/
def FilterAndScoreTorrents (rm : String → String → Bool) (em : Int → Int → String → Bool)
    (cfg : AutomationCfg) (media : Media) (results : List IndexerResult)
    (season episode : Int) (searchTerms : List String) : List IndexerResult :=
  let results := filterByRejectPatterns rm cfg.rejectCommon results
  let results :=
    if (media.type == MediaType.tvshow || media.type == MediaType.anime)
        && 0 < season && 0 < episode then
      let results := filterByEpisodeNumber em results season episode
      filterBySeriesName results searchTerms
    else results
  let results := filterByQuality results media.minQuality media.maxQuality
  let results := filterByMinSeeders cfg.minSeeders results
  let results := results.map (fun r => { r with score := getQualityScore r.title + r.seeders })
  sortResultsByScore results

/-- Models `SelectBestTorrent`: the first element of the filtered and
scored list, or nothing. -/
def SelectBestTorrent (rm : String → String → Bool) (em : Int → Int → String → Bool)
    (cfg : AutomationCfg) (media : Media) (results : List IndexerResult)
    (season episode : Int) (searchTerms : List String) : Option IndexerResult :=
  (FilterAndScoreTorrents rm em cfg media results season episode searchTerms).head?

/-! ## Repository (internal/database/sqlite.go)

The SQLite store is modelled as explicit table state.  Single SQL
statements are atomic; each `db.Exec` that a claim's failure semantics
depend on takes an explicit `Bool` failure flag (`true` = the statement
errors and writes nothing).  Rows carry the columns the claims touch;
presentation-only columns (overview, poster, rating, ...) are omitted. -/

structure TVShowRow where
  id : Int
  statusStr : String
deriving DecidableEq, Repr, Inhabited

structure SeasonRow where
  id : Int
  showId : Int
  seasonNumber : Int
deriving DecidableEq, Repr, Inhabited

structure EpisodeRow where
  id : Int
  seasonId : Int
  episodeNumber : Int
  status : MediaStatus
deriving DecidableEq, Repr, Inhabited

structure DB where
  media : List Media
  shows : List TVShowRow
  seasons : List SeasonRow
  episodes : List EpisodeRow
deriving DecidableEq, Repr, Inhabited

/-- Models `GetByStatus` restricted to what the scheduler tasks use: the
set of matching rows.  (The SQL orders by `added_at DESC`; the tasks
iterate over all rows independently, so the embedding keeps table order.) -/
def getByStatus (db : DB) (st : MediaStatus) : List Media :=
  db.media.filter (fun m => m.status == st)

/-- Models `UpdateStatus(id, status)`: one atomic UPDATE of the status
column. -/
def updateStatusDB (db : DB) (id : Int) (st : MediaStatus) : DB :=
  { db with media := db.media.map (fun m =>
      if m.id == id then { m with status := st } else m) }

/-- Models `UpdateProgress(id, status, progress, completedAt)`: one atomic
UPDATE writing status, progress and completed_at. -/
def updateProgressDB (db : DB) (id : Int) (st : MediaStatus) (progress : ℚ)
    (completedAt : Option Int) : DB :=
  { db with media := db.media.map (fun m =>
      if m.id == id then { m with status := st, progress := progress, completedAt := completedAt }
      else m) }

/-- Stable insertion by an integer sort key; models a SQL `ORDER BY`. -/
def insertByKey {α : Type} (key : α → Int) (x : α) : List α → List α
  | [] => [x]
  | y :: ys => if key x < key y then x :: y :: ys else y :: insertByKey key x ys

def sortByKey {α : Type} (key : α → Int) : List α → List α
  | [] => []
  | x :: xs => insertByKey key x (sortByKey key xs)

structure SeasonAgg where
  id : Int
  seasonNumber : Int
  episodes : List EpisodeRow
deriving DecidableEq, Repr, Inhabited

structure TVShowAgg where
  id : Int
  statusStr : String
  seasons : List SeasonAgg
deriving DecidableEq, Repr, Inhabited

/-- Models `GetTVShowByMediaID`: resolve the media row's `tv_show_id`,
load the show row, and aggregate its seasons sorted by season number with
episodes sorted by episode number.  `none` covers both the not-a-show
result and the missing-row error, which the callers below treat alike
(they skip the show-specific work). -/
def getTVShowByMediaID (db : DB) (mediaID : Int) : Option TVShowAgg :=
  match db.media.find? (fun m => m.id == mediaID) with
  | none => none
  | some m =>
    match m.tvShowId with
    | none => none
    | some sid =>
      match db.shows.find? (fun s => s.id == sid) with
      | none => none
      | some showRow =>
        let seasons := sortByKey (fun s : SeasonRow => s.seasonNumber)
          (db.seasons.filter (fun s => s.showId == sid))
        some { id := showRow.id, statusStr := showRow.statusStr,
               seasons := seasons.map (fun s =>
                 { id := s.id, seasonNumber := s.seasonNumber,
                   episodes := sortByKey (fun e : EpisodeRow => e.episodeNumber)
                     (db.episodes.filter (fun e => e.seasonId == s.id)) }) }

/-- The partial unique indexes of the schema
(`idx_media_movie_tmdb ON media(tmdb_id, type) WHERE type = movie AND
tmdb_id IS NOT NULL` and
`idx_media_tvshow_title_year ON media(title, year, type) WHERE
type = tvshow`): an INSERT violates them exactly when this holds. -/
def violatesMediaUnique (tbl : List Media) (m : Media) : Bool :=
  (m.type == MediaType.movie && m.tmdbId.isSome
    && tbl.any (fun r => r.type == MediaType.movie && r.tmdbId.isSome && r.tmdbId == m.tmdbId))
  || (m.type == MediaType.tvshow
    && tbl.any (fun r => r.type == MediaType.tvshow && r.title == m.title && r.year == m.year))

/-- Models `MediaRepository.Create`: a single INSERT whose only failure
mode of interest is the SQLite unique-index violation, surfaced as the
driver's error string. -/
def mediaRepoCreate (tbl : List Media) (m : Media) : Except String (List Media) :=
  if violatesMediaUnique tbl m then
    Except.error "UNIQUE constraint failed: media"
  else Except.ok (tbl ++ [m])

/-- Models the error mapping of the `AddMedia` API handler: a constraint
error becomes HTTP 409, any other error 400, success 201. -/
def addMediaHTTPStatus (res : Except String (List Media)) : Nat :=
  match res with
  | Except.ok _ => 201
  | Except.error e =>
    if goContains e "UNIQUE constraint failed" || goContains e "unique constraint" then 409
    else 400

/-- Models `UpdateEpisodeDownloadInfo(mediaID, season, episode, status,
hash, name)`: three reads/writes issued as separate statements with no
transaction.  `epExecFails` and `mediaExecFails` are the failure flags of
the two UPDATE statements; the result pairs the post-call state with the
returned error, if any. -/
def updateEpisodeDownloadInfo (db : DB) (mediaID seasonNumber episodeNumber : Int)
    (status : MediaStatus) (hash torrentName : Option String)
    (epExecFails mediaExecFails : Bool) : DB × Option String :=
  match db.media.find? (fun m => m.id == mediaID) with
  | none => (db, some "failed to get TV show ID")
  | some m =>
    match m.tvShowId with
    | none => (db, some "media is not a TV show")
    | some showId =>
      match db.seasons.find? (fun s => s.showId == showId && s.seasonNumber == seasonNumber) with
      | none => (db, some "season not found")
      | some season =>
        if epExecFails then (db, some "failed to update episode status")
        else
          let db1 : DB := { db with episodes := db.episodes.map (fun e =>
            if e.seasonId == season.id && e.episodeNumber == episodeNumber then
              { e with status := status }
            else e) }
          match hash, torrentName with
          | some h, some n =>
            if mediaExecFails then (db1, some "failed to update media download info")
            else
              ({ db1 with media := db1.media.map (fun mm =>
                  if mm.id == mediaID then
                    { mm with torrentHash := some h, torrentName := some n,
                              status := MediaStatus.downloading }
                  else mm) }, none)
          | _, _ => (db1, none)

/-! ## Manager tasks (internal/core/manager.go) -/

/-- Per-episode step of the counting loop in `updateShowProgress`. -/
def epAccum (acc : Nat × Nat × Nat × Nat) (e : EpisodeRow) : Nat × Nat × Nat × Nat :=
  let (dl, dld, pnd, tba) := acc
  let (dl, dld) :=
    if e.status ≠ MediaStatus.skipped ∧ e.status ≠ MediaStatus.tba then
      (dl + 1, if e.status = MediaStatus.downloaded then dld + 1 else dld)
    else (dl, dld)
  let pnd :=
    if e.status = MediaStatus.pending ∨ e.status = MediaStatus.downloading then pnd + 1
    else pnd
  let tba := if e.status = MediaStatus.tba then tba + 1 else tba
  (dl, dld, pnd, tba)

/-- Episode counters of `updateShowProgress`, accumulated in source order:
(downloadable, downloaded, pending-or-downloading, tba). -/
def showProgressCounts (sh : TVShowAgg) : Nat × Nat × Nat × Nat :=
  sh.seasons.foldl (fun acc season => season.episodes.foldl epAccum acc) (0, 0, 0, 0)

/-- The new status and progress that `updateShowProgress` derives from a
show aggregate. -/
def updateShowProgressCompute (sh : TVShowAgg) : MediaStatus × ℚ :=
  let (dl, dld, pnd, tba) := showProgressCounts sh
  let progress : ℚ := if 0 < dl then (dld : ℚ) / (dl : ℚ) else 0
  let newStatus :=
    if pnd = 0 then
      if 0 < tba ∨ strLower sh.statusStr = "running" then MediaStatus.monitoring
      else MediaStatus.downloaded
    else MediaStatus.downloading
  (newStatus, progress)

/-- Models `updateShowProgress(mediaID)`: recompute the derived status and
progress and write them with `UpdateProgress(mediaID, newStatus, progress,
nil)` — the completed_at argument is always nil in the source. -/
def updateShowProgress (db : DB) (mediaID : Int) : DB :=
  match getTVShowByMediaID db mediaID with
  | none => db
  | some sh =>
    let (st, pr) := updateShowProgressCompute sh
    updateProgressDB db mediaID st pr none

/-- Torrent-client status as returned by `GetTorrentStatus`; the upload
ratio is a `float64` used only in comparisons, modelled as `ℚ`. -/
structure TorrentStatusGo where
  name : String
  progress : ℚ
  isCompleted : Bool
  downloadDir : String
  uploadRatioVal : ℚ
deriving DecidableEq, Repr, Inhabited

def firstDownloadingInSeasons : List SeasonAgg → Option (Int × Int)
  | [] => none
  | s :: rest =>
    match s.episodes.find? (fun e => e.status == MediaStatus.downloading) with
    | some e => some (s.seasonNumber, e.episodeNumber)
    | none => firstDownloadingInSeasons rest

/-- One iteration of the `updateDownloadStatus` loop for a media item with
a torrent hash: `client` models `GetTorrentStatus` (`none` = error).  On
error the source logs and sets the media status to failed.  On completion
it marks the first downloading episode (shows) or the media row (movies)
as downloaded — spawning post-processing asynchronously, which performs no
repository write in this step — and then recomputes the parent show's
derived status; otherwise it writes the progress. -/
def updateDownloadStatusStep (client : String → Option TorrentStatusGo) (now : Int)
    (db : DB) (media : Media) : DB :=
  match media.torrentHash with
  | none => db
  | some h =>
    match client h with
    | none => updateStatusDB db media.id MediaStatus.failed
    | some st =>
      if st.isCompleted then
        let db :=
          if media.type == MediaType.tvshow || media.type == MediaType.anime then
            match getTVShowByMediaID db media.id with
            | none => db
            | some sh =>
              match firstDownloadingInSeasons sh.seasons with
              | none => db
              | some (sn, en) =>
                (updateEpisodeDownloadInfo db media.id sn en MediaStatus.downloaded
                  none none false false).1
          else
            if media.status == MediaStatus.downloading then
              updateProgressDB db media.id MediaStatus.downloaded 1 (some now)
            else db
        if media.type == MediaType.tvshow || media.type == MediaType.anime then
          updateShowProgress db media.id
        else db
      else updateProgressDB db media.id MediaStatus.downloading st.progress none

/-- Models the `updateDownloadStatus` task: iterate the snapshot of
`downloading` rows and apply the per-item step. -/
def updateDownloadStatus (db : DB) (client : String → Option TorrentStatusGo)
    (now : Int) : DB :=
  (getByStatus db MediaStatus.downloading).foldl (updateDownloadStatusStep client now) db

/-- Models `cleanupCompletedTorrents`.  Time instants are day-resolution
integers, so `time.Now().AddDate(0, 0, -days)` is `now - days` and
`CompletedAt.Before(threshold)` is `<`.  `client` models
`GetTorrentStatus` (`none` = error, per-item skip); `removeOk` tells
whether `RemoveTorrent` succeeds (on failure the status is not updated).
The returned list collects the hashes actually removed from the client. -/
def cleanupCompletedTorrents (cfg : AutomationCfg) (db : DB)
    (client : String → Option TorrentStatusGo) (removeOk : String → Bool)
    (now : Int) : DB × List String :=
  if cfg.keepTorrentsForDays ≤ 0 ∧ cfg.keepTorrentsSeedRatioVal ≤ 0 then (db, [])
  else
    let downloadedMedia := getByStatus db MediaStatus.downloaded
    let cleanupThreshold := now - cfg.keepTorrentsForDays
    downloadedMedia.foldl (fun (acc : DB × List String) media =>
      match media.completedAt, media.torrentHash with
      | some cAt, some h =>
        match client h with
        | none => acc
        | some st =>
          let shouldDelete :=
            (0 < cfg.keepTorrentsForDays ∧ cAt < cleanupThreshold)
            ∨ (0 < cfg.keepTorrentsSeedRatioVal
                ∧ cfg.keepTorrentsSeedRatioVal ≤ st.uploadRatioVal)
          if shouldDelete then
            if removeOk h then (updateStatusDB acc.1 media.id MediaStatus.archived, acc.2 ++ [h])
            else acc
          else acc
      | _, _ => acc) (db, [])

/-! ## Search queue (manager.go)

`searchQueue` is `make(chan models.Media, 100)`.  The scheduler tasks
enqueue with a plain send `m.searchQueue <- mediaCopy`; the buffered
channel accepts the value while fewer than 100 items are buffered and
otherwise blocks the sending goroutine.  A tick that blocks is modelled as
`none` (it cannot finish until the worker drains the queue). -/

def queueCapacity : Nat := 100

def chanTrySend (buf : List Media) (m : Media) : Option (List Media) :=
  if buf.length < queueCapacity then some (buf ++ [m]) else none

/-- The enqueue loop shared by `processPendingMedia`: for each item with
`auto_download`, perform the blocking send. -/
def enqueueAllBlocking (buf : List Media) : List Media → Option (List Media)
  | [] => some buf
  | m :: rest =>
    if m.autoDownload then
      match chanTrySend buf m with
      | some buf2 => enqueueAllBlocking buf2 rest
      | none => none
    else enqueueAllBlocking buf rest

/-- Models the `processPendingMedia` task: concatenate the pending and
failed snapshots and enqueue every `auto_download` item with a blocking
send. -/
def processPendingMedia (db : DB) (buf : List Media) : Option (List Media) :=
  enqueueAllBlocking buf (getByStatus db MediaStatus.pending ++ getByStatus db MediaStatus.failed)

/-- The per-item loop of `retryFailedDownloads`: flip the row to pending
(on a failed UPDATE the item is skipped; modelled as success, which the
claims here do not depend on), then perform the blocking send. -/
def retryEnqueueLoop (db : DB) (buf : List Media) : List Media → Option (DB × List Media)
  | [] => some (db, buf)
  | m :: rest =>
    if m.autoDownload then
      let db := updateStatusDB db m.id MediaStatus.pending
      match chanTrySend buf m with
      | some buf2 => retryEnqueueLoop db buf2 rest
      | none => none
    else retryEnqueueLoop db buf rest

/-- Models the `retryFailedDownloads` task over the snapshot of failed
rows. -/
def retryFailedDownloads (db : DB) (buf : List Media) : Option (DB × List Media) :=
  retryEnqueueLoop db buf (getByStatus db MediaStatus.failed)

/-! ## The completed-at invariant of the specification (for claim C9) -/

/-- Right-hand side of the claimed invariant: the row is a movie in status
downloaded, or a show/anime all of whose episodes are downloaded. -/
def mediaCompletedSide (db : DB) (m : Media) : Bool :=
  match m.type with
  | MediaType.movie => m.status == MediaStatus.downloaded
  | _ =>
    match getTVShowByMediaID db m.id with
    | none => false
    | some sh => sh.seasons.all (fun s =>
        s.episodes.all (fun e => e.status == MediaStatus.downloaded))

/-- The claimed invariant: completed_at is non-null iff the row completed. -/
def completedAtIffDownloaded (db : DB) : Prop :=
  ∀ m ∈ db.media, (m.completedAt ≠ none ↔ mediaCompletedSide db m = true)

instance (db : DB) : Decidable (completedAtIffDownloaded db) := by
  unfold completedAtIffDownloaded
  infer_instance

/-! ## Episode predicates (the vocabulary of the derived-status claim) -/

def pDownloadable (e : EpisodeRow) : Bool :=
  !(e.status == MediaStatus.skipped) && !(e.status == MediaStatus.tba)

def pDownloadedIn (e : EpisodeRow) : Bool :=
  pDownloadable e && e.status == MediaStatus.downloaded

def pPendingOrDl (e : EpisodeRow) : Bool :=
  e.status == MediaStatus.pending || e.status == MediaStatus.downloading

def pTba (e : EpisodeRow) : Bool := e.status == MediaStatus.tba

/-- All episodes of a show aggregate, seasons in order. -/
def allEpisodes (sh : TVShowAgg) : List EpisodeRow :=
  (sh.seasons.map (fun s => s.episodes)).flatten

/-! ## Concrete fixtures for counterexamples and witnesses -/

def noRM : String → String → Bool := fun _ _ => false

def noEM : Int → Int → String → Bool := fun _ _ _ => false

def c1Media : Media :=
  { id := 1, type := MediaType.movie, tmdbId := some 603, tvShowId := none,
    title := "The Matrix", year := 1999, minQuality := "360p", maxQuality := "2160p",
    status := MediaStatus.searching, torrentHash := none, torrentName := none,
    progress := 0, completedAt := none, autoDownload := true }

def c1Cfg : AutomationCfg :=
  { minSeeders := 0, rejectCommon := [], keepTorrentsForDays := 0,
    keepTorrentsSeedRatioVal := 0 }

def mkC1Result (seeders : Int) (indexer : String) : IndexerResult :=
  { title := "1080p", size := 0, seeders := seeders, leechers := 0,
    downloadURL := "", publishDate := 0, indexer := indexer, score := 0 }

/-- Thirteen candidates, all surviving every filter stage with equal
titles, distinguished by indexer name; the first and the seventh share
score 12 (every score is `getQualityScore "1080p" + seeders = 5 +
seeders`). -/
def c1Input : List IndexerResult :=
  [mkC1Result 7 "idx00", mkC1Result 12 "idx01", mkC1Result 11 "idx02", mkC1Result 10 "idx03",
   mkC1Result 9 "idx04", mkC1Result 8 "idx05", mkC1Result 7 "idx06", mkC1Result 6 "idx07",
   mkC1Result 5 "idx08", mkC1Result 4 "idx09", mkC1Result 3 "idx10", mkC1Result 2 "idx11",
   mkC1Result 1 "idx12"]

def c2Anime1 : Media :=
  { id := 1, type := MediaType.anime, tmdbId := none, tvShowId := some 1,
    title := "Steins;Gate", year := 2011, minQuality := "720p", maxQuality := "1080p",
    status := MediaStatus.pending, torrentHash := none, torrentName := none,
    progress := 0, completedAt := none, autoDownload := true }

def c2Anime2 : Media :=
  { id := 2, type := MediaType.anime, tmdbId := none, tvShowId := some 2,
    title := "Steins;Gate", year := 2011, minQuality := "720p", maxQuality := "1080p",
    status := MediaStatus.pending, torrentHash := none, torrentName := none,
    progress := 0, completedAt := none, autoDownload := true }

def c2Movie1 : Media :=
  { id := 3, type := MediaType.movie, tmdbId := some 603, tvShowId := none,
    title := "The Matrix", year := 1999, minQuality := "720p", maxQuality := "1080p",
    status := MediaStatus.pending, torrentHash := none, torrentName := none,
    progress := 0, completedAt := none, autoDownload := true }

def c2Movie2 : Media := { c2Movie1 with id := 4, title := "The Matrix again" }

/-- The aggregate that `GetTVShowByMediaID` loads from the C9 fixture. -/
def c5Show : TVShowAgg :=
  { id := 6, statusStr := "ended",
    seasons := [{ id := 8, seasonNumber := 1,
                  episodes := [{ id := 11, seasonId := 8, episodeNumber := 1,
                                 status := MediaStatus.downloading }] }] }

/-- A candidate whose title mentions no resolution synonym. -/
def c6NoRes : IndexerResult :=
  { title := "My Show S01E01 WEB", size := 0, seeders := 9, leechers := 0,
    downloadURL := "", publishDate := 0, indexer := "idxw", score := 0 }

def c3Media : Media :=
  { id := 10, type := MediaType.tvshow, tmdbId := none, tvShowId := some 5,
    title := "My Show", year := 2020, minQuality := "720p", maxQuality := "1080p",
    status := MediaStatus.searching, torrentHash := none, torrentName := none,
    progress := 0, completedAt := none, autoDownload := true }

def c3Season : SeasonRow := { id := 7, showId := 5, seasonNumber := 2 }

def c3Db : DB :=
  { media := [c3Media],
    shows := [{ id := 5, statusStr := "running" }],
    seasons := [c3Season],
    episodes := [{ id := 9, seasonId := 7, episodeNumber := 5, status := MediaStatus.pending }] }

def c4Media : Media :=
  { id := 3, type := MediaType.movie, tmdbId := some 42, tvShowId := none,
    title := "Some Movie", year := 2021, minQuality := "720p", maxQuality := "1080p",
    status := MediaStatus.downloading, torrentHash := some "deadbeef", torrentName := some "t",
    progress := 1/2, completedAt := none, autoDownload := true }

def c4Db : DB := { media := [c4Media], shows := [], seasons := [], episodes := [] }

/-- A torrent client whose status call fails (transient remote failure). -/
def failClient : String → Option TorrentStatusGo := fun _ => none

def c7QueueFiller : Media :=
  { id := 99, type := MediaType.movie, tmdbId := none, tvShowId := none,
    title := "Filler", year := 2000, minQuality := "720p", maxQuality := "1080p",
    status := MediaStatus.pending, torrentHash := none, torrentName := none,
    progress := 0, completedAt := none, autoDownload := true }

def c7FullBuf : List Media := List.replicate 100 c7QueueFiller

def c7Pending : Media :=
  { id := 42, type := MediaType.movie, tmdbId := none, tvShowId := none,
    title := "Wanted", year := 2019, minQuality := "720p", maxQuality := "1080p",
    status := MediaStatus.pending, torrentHash := none, torrentName := none,
    progress := 0, completedAt := none, autoDownload := true }

def c7Db : DB := { media := [c7Pending], shows := [], seasons := [], episodes := [] }

def c7Failed : Media := { c7Pending with id := 43, status := MediaStatus.failed }

def c7DbFailed : DB := { media := [c7Failed], shows := [], seasons := [], episodes := [] }

def c8Media : Media :=
  { id := 4, type := MediaType.movie, tmdbId := none, tvShowId := none,
    title := "Done Movie", year := 2018, minQuality := "720p", maxQuality := "1080p",
    status := MediaStatus.downloaded, torrentHash := some "cafe", torrentName := some "n",
    progress := 1, completedAt := none, autoDownload := true }

def c8Db : DB := { media := [c8Media], shows := [], seasons := [], episodes := [] }

def c8Client : String → Option TorrentStatusGo := fun _ =>
  some { name := "t", progress := 1, isCompleted := true, downloadDir := "/dl",
         uploadRatioVal := 3 }

/-- Retention config with only the seed-ratio threshold enabled. -/
def c8Cfg : AutomationCfg :=
  { minSeeders := 0, rejectCommon := [], keepTorrentsForDays := 0,
    keepTorrentsSeedRatioVal := 2 }

def c9Media : Media :=
  { id := 20, type := MediaType.tvshow, tmdbId := none, tvShowId := some 6,
    title := "Ended Show", year := 2015, minQuality := "720p", maxQuality := "1080p",
    status := MediaStatus.downloading, torrentHash := some "feed", torrentName := some "n",
    progress := 0, completedAt := none, autoDownload := true }

/-- A show whose single remaining episode is downloading; the torrent
client reports completion, so one tick marks the episode downloaded and
recomputes the show status to downloaded. -/
def c9Db : DB :=
  { media := [c9Media],
    shows := [{ id := 6, statusStr := "ended" }],
    seasons := [{ id := 8, showId := 6, seasonNumber := 1 }],
    episodes := [{ id := 11, seasonId := 8, episodeNumber := 1, status := MediaStatus.downloading }] }

def c9Client : String → Option TorrentStatusGo := fun _ =>
  some { name := "n", progress := 1, isCompleted := true, downloadDir := "/dl",
         uploadRatioVal := 0 }

/-- The row that the movie-completion write produces from the C4 fixture. -/
def c9ResultRow : Media :=
  { c4Media with status := MediaStatus.downloaded, progress := 1, completedAt := some 500 }

/-! # Theorems -/

set_option maxRecDepth 1000000 in
set_option maxHeartbeats 2000000 in
/-- C1: the specification states that `FilterAndScoreTorrents` sorts by
score descending with ties kept in input (indexer) order — a stable sort.
The source sorts with `sort.Slice`, whose pdqsort is not stable: at this
concrete thirteen-candidate input (movie media, wide quality window, no
reject patterns, seeder floor 0, every candidate surviving with score
`getQualityScore + seeders`), the two candidates tied at score 12 enter
in order idx00, idx06 and leave in order idx06, idx00; the output is
descending by score, so only the tie-order part of the claim fails. -/
theorem C1_sort_not_stable_eval :
    (FilterAndScoreTorrents noRM noEM c1Cfg c1Media c1Input 0 0 []).map
        (fun r => (r.indexer, r.score))
      = [("idx01", 17), ("idx02", 16), ("idx03", 15), ("idx04", 14), ("idx05", 13),
         ("idx06", 12), ("idx00", 12), ("idx07", 11), ("idx08", 10), ("idx09", 9),
         ("idx10", 8), ("idx11", 7), ("idx12", 6)]
    ∧ c1Input.map (fun r => (r.indexer, getQualityScore r.title + r.seeders))
      = [("idx00", 12), ("idx01", 17), ("idx02", 16), ("idx03", 15), ("idx04", 14),
         ("idx05", 13), ("idx06", 12), ("idx07", 11), ("idx08", 10), ("idx09", 9),
         ("idx10", 8), ("idx11", 7), ("idx12", 6)]
    ∧ (SelectBestTorrent noRM noEM c1Cfg c1Media c1Input 0 0 []).map
        (fun r => r.indexer) = some "idx01" := by
  decide

/-- C2 counterexample: two anime rows with identical (title, year, type)
— the claimed uniqueness policy for anime — but `Create` succeeds, because
the unique index `idx_media_tvshow_title_year` is partial on
`type = tvshow` and does not cover anime. -/
theorem C2_anime_duplicate_not_rejected :
    c2Anime1.type = MediaType.anime ∧ c2Anime2.type = MediaType.anime
    ∧ c2Anime2.title = c2Anime1.title ∧ c2Anime2.year = c2Anime1.year
    ∧ mediaRepoCreate [c2Anime1] c2Anime2 = Except.ok [c2Anime1, c2Anime2] :=
  ⟨rfl, rfl, rfl, rfl, rfl⟩

/-- C3 counterexample: with both hash and name provided, when the episode
UPDATE succeeds and the parent-media UPDATE errors, the call returns an
error yet the episode status change stays visible — there is no
transaction wrapping the two statements, so it is not the case that on
error neither change is visible. -/
theorem C3_partial_write_on_error_cex :
    (updateEpisodeDownloadInfo c3Db 10 2 5 MediaStatus.downloading (some "ha") (some "na")
        false true).2 = some "failed to update media download info"
    ∧ (updateEpisodeDownloadInfo c3Db 10 2 5 MediaStatus.downloading (some "ha") (some "na")
        false true).1.episodes.map (fun e => e.status) = [MediaStatus.downloading]
    ∧ c3Db.episodes.map (fun e => e.status) = [MediaStatus.pending]
    ∧ (updateEpisodeDownloadInfo c3Db 10 2 5 MediaStatus.downloading (some "ha") (some "na")
        false true).1.media = c3Db.media := by
  decide

/-- C4 counterexample: a downloading movie with a torrent hash whose
status poll fails is not left unchanged — `updateDownloadStatus` sets its
status to failed, so the next download-status tick no longer retries it. -/
theorem C4_poll_error_mutates_state_cex :
    (updateDownloadStatus c4Db failClient 0).media.map (fun m => m.status)
      = [MediaStatus.failed]
    ∧ c4Db.media.map (fun m => m.status) = [MediaStatus.downloading]
    ∧ updateDownloadStatus c4Db failClient 0 ≠ c4Db := by
  decide

/-- C7 counterexample: with the 100-slot search queue full and one
eligible candidate, both scheduler dispatch tasks evaluate to `none`,
the embedding of a tick stuck in a blocking channel send — the enqueue is
not dropped and the tick does not complete with the queue unchanged. -/
theorem C7_full_queue_blocks_cex :
    c7FullBuf.length = queueCapacity
    ∧ processPendingMedia c7Db c7FullBuf = none
    ∧ retryFailedDownloads c7DbFailed c7FullBuf = none := by
  decide

/-- C8 counterexample: a downloaded media with a torrent hash, a null
completed_at, the seed-ratio threshold enabled and exceeded (3 ≥ 2): the
claim demands removal and archiving, but the task's
`media.CompletedAt != nil` guard skips the row entirely. -/
theorem C8_nil_completed_at_skipped_cex :
    c8Media.status = MediaStatus.downloaded
    ∧ c8Media.torrentHash = some "cafe"
    ∧ c8Media.completedAt = none
    ∧ (0 : ℚ) < c8Cfg.keepTorrentsSeedRatioVal
    ∧ (c8Client "cafe").map (fun st => st.uploadRatioVal) = some 3
    ∧ c8Cfg.keepTorrentsSeedRatioVal ≤ 3
    ∧ cleanupCompletedTorrents c8Cfg c8Db c8Client (fun _ => true) 100 = (c8Db, []) := by
  decide

/-- C9 counterexample: the invariant holds before the tick, the tick
completes the last episode of a show (all episodes downloaded, status
downloaded) — yet completed_at is still null afterwards, because
`updateShowProgress` always passes nil to `UpdateProgress`. -/
theorem C9_completed_at_invariant_cex :
    completedAtIffDownloaded c9Db
    ∧ ¬ completedAtIffDownloaded (updateDownloadStatus c9Db c9Client 500)
    ∧ (updateDownloadStatus c9Db c9Client 500).media.map (fun m => (m.status, m.completedAt))
      = [(MediaStatus.downloaded, none)]
    ∧ (updateDownloadStatus c9Db c9Client 500).episodes.map (fun e => e.status)
      = [MediaStatus.downloaded] := by
  decide

lemma createError_iff_violates (tbl : List Media) (m : Media) :
    (∃ e, mediaRepoCreate tbl m = Except.error e) ↔ violatesMediaUnique tbl m = true := by
  unfold mediaRepoCreate
  by_cases hv : violatesMediaUnique tbl m = true
  · simp [hv]
  · simp [hv]

lemma violates_iff_semantic (tbl : List Media) (m : Media) :
    violatesMediaUnique tbl m = true ↔
      ((m.type = MediaType.movie ∧ m.tmdbId.isSome = true
          ∧ ∃ r ∈ tbl, r.type = MediaType.movie ∧ r.tmdbId.isSome = true ∧ r.tmdbId = m.tmdbId)
        ∨ (m.type = MediaType.tvshow
          ∧ ∃ r ∈ tbl, r.type = MediaType.tvshow ∧ r.title = m.title ∧ r.year = m.year)) := by
  unfold violatesMediaUnique
  simp only [Bool.or_eq_true, Bool.and_eq_true, List.any_eq_true, beq_iff_eq, and_assoc]

/-- C2 amended: `Create` fails with the distinguishable SQLite
unique-constraint error (mapped to HTTP 409 by the API handler) exactly
when the new row is a movie with a tmdb id already present on a movie row,
or a tvshow with (title, year, type) already present on a tvshow row;
anime rows are outside both partial unique indexes, so anime duplicates
are accepted (see the counterexample); otherwise the row is persisted. -/
theorem C2_create_uniqueness_amended (tbl : List Media) (m : Media) :
    ((∃ e, mediaRepoCreate tbl m = Except.error e) ↔
      ((m.type = MediaType.movie ∧ m.tmdbId.isSome = true
          ∧ ∃ r ∈ tbl, r.type = MediaType.movie ∧ r.tmdbId.isSome = true ∧ r.tmdbId = m.tmdbId)
        ∨ (m.type = MediaType.tvshow
          ∧ ∃ r ∈ tbl, r.type = MediaType.tvshow ∧ r.title = m.title ∧ r.year = m.year)))
    ∧ (violatesMediaUnique tbl m = false → mediaRepoCreate tbl m = Except.ok (tbl ++ [m]))
    ∧ addMediaHTTPStatus (mediaRepoCreate tbl m) =
        (if violatesMediaUnique tbl m then 409 else 201) := by
  refine ⟨(createError_iff_violates tbl m).trans (violates_iff_semantic tbl m), ?_, ?_⟩
  · intro hv
    unfold mediaRepoCreate
    simp [hv]
  · unfold addMediaHTTPStatus mediaRepoCreate
    by_cases hv : violatesMediaUnique tbl m = true
    · simp [hv]
      decide
    · simp [hv]

/-- C3 amended: with hash and name both provided, the episode UPDATE and
the parent-media UPDATE run as two separate statements with no
transaction: when both succeed, both writes are visible; when the
parent-media UPDATE fails after the episode UPDATE succeeded, the call
returns an error but the episode status change remains committed. -/
theorem C3_two_separate_statements
    (db : DB) (mid sn en : Int) (st : MediaStatus) (h n : String)
    (m : Media) (sid : Int) (season : SeasonRow)
    (hm : db.media.find? (fun x => x.id == mid) = some m)
    (hsid : m.tvShowId = some sid)
    (hs : db.seasons.find? (fun s => s.showId == sid && s.seasonNumber == sn) = some season) :
    updateEpisodeDownloadInfo db mid sn en st (some h) (some n) false false =
      ({ db with
          episodes := db.episodes.map (fun e =>
            if e.seasonId == season.id && e.episodeNumber == en then { e with status := st }
            else e),
          media := db.media.map (fun mm =>
            if mm.id == mid then
              { mm with torrentHash := some h, torrentName := some n,
                        status := MediaStatus.downloading }
            else mm) }, none)
    ∧ updateEpisodeDownloadInfo db mid sn en st (some h) (some n) false true =
      ({ db with
          episodes := db.episodes.map (fun e =>
            if e.seasonId == season.id && e.episodeNumber == en then { e with status := st }
            else e) }, some "failed to update media download info") := by
  unfold updateEpisodeDownloadInfo
  simp only [hm, hsid, hs]
  exact ⟨rfl, rfl⟩

/-- Witness for C3: at the concrete fixture database, the amended theorem
applies with all lookups discharged by evaluation. -/
theorem C3_two_separate_statements_witness :
    (updateEpisodeDownloadInfo c3Db 10 2 5 MediaStatus.downloading (some "ha") (some "na")
        false true).2 = some "failed to update media download info" := by
  have hthm := C3_two_separate_statements c3Db 10 2 5 MediaStatus.downloading "ha" "na"
    c3Media 5 c3Season (by decide) (by decide) (by decide)
  rw [hthm.2]

/-- C10: when hash or name is nil, `UpdateEpisodeDownloadInfo` only
touches the episode rows matching (season id, episode number) — setting
their status — and leaves every media, show and season row, and every
non-matching episode row, unchanged; the call succeeds. -/
theorem C10_episode_update_frame
    (db : DB) (mid sn en : Int) (st : MediaStatus) (hash torrentName : Option String)
    (m : Media) (sid : Int) (season : SeasonRow)
    (hnil : hash = none ∨ torrentName = none)
    (hm : db.media.find? (fun x => x.id == mid) = some m)
    (hsid : m.tvShowId = some sid)
    (hs : db.seasons.find? (fun s => s.showId == sid && s.seasonNumber == sn) = some season) :
    (updateEpisodeDownloadInfo db mid sn en st hash torrentName false false).1.media = db.media
    ∧ (updateEpisodeDownloadInfo db mid sn en st hash torrentName false false).1.shows = db.shows
    ∧ (updateEpisodeDownloadInfo db mid sn en st hash torrentName false false).1.seasons
        = db.seasons
    ∧ (updateEpisodeDownloadInfo db mid sn en st hash torrentName false false).1.episodes
        = db.episodes.map (fun e =>
            if e.seasonId == season.id && e.episodeNumber == en then { e with status := st }
            else e)
    ∧ (updateEpisodeDownloadInfo db mid sn en st hash torrentName false false).2 = none := by
  unfold updateEpisodeDownloadInfo
  simp only [hm, hsid, hs]
  rcases hash with _ | hv
  · exact ⟨rfl, rfl, rfl, rfl, rfl⟩
  · rcases hnil with hcontra | hn
    · exact absurd hcontra (by simp)
    · rw [hn]
      exact ⟨rfl, rfl, rfl, rfl, rfl⟩

/-- Witness for C10: concrete nil-hash episode update, hypotheses
discharged by evaluation. -/
theorem C10_episode_update_frame_witness :
    (updateEpisodeDownloadInfo c3Db 10 2 5 MediaStatus.downloaded none none false false).1.media
      = c3Db.media
    ∧ (updateEpisodeDownloadInfo c3Db 10 2 5 MediaStatus.downloaded none none false false).2
      = none := by
  have hthm := C10_episode_update_frame c3Db 10 2 5 MediaStatus.downloaded none none
    c3Media 5 c3Season (Or.inl rfl) (by decide) (by decide) (by decide)
  exact ⟨hthm.1, hthm.2.2.2.2⟩

/-- C4 amended: when the download-status poll fails for a downloading
item with a torrent hash, the failure is logged and the item's status is
set to failed (no other column and no other row changes); since the poll
only iterates `downloading` rows, the item is no longer retried by the
download-status task but by the hourly failed-retry path. -/
theorem C4_poll_failure_sets_failed
    (db : DB) (m : Media) (client : String → Option TorrentStatusGo) (now : Int) (h : String)
    (hh : m.torrentHash = some h) (hc : client h = none) :
    updateDownloadStatusStep client now db m = updateStatusDB db m.id MediaStatus.failed
    ∧ (updateDownloadStatusStep client now db m).media = db.media.map (fun r =>
        if r.id == m.id then { r with status := MediaStatus.failed } else r)
    ∧ (updateDownloadStatusStep client now db m).shows = db.shows
    ∧ (updateDownloadStatusStep client now db m).seasons = db.seasons
    ∧ (updateDownloadStatusStep client now db m).episodes = db.episodes
    ∧ (∀ r ∈ (updateDownloadStatusStep client now db m).media,
        r.id = m.id → r.status = MediaStatus.failed) := by
  have hstep : updateDownloadStatusStep client now db m
      = updateStatusDB db m.id MediaStatus.failed := by
    unfold updateDownloadStatusStep
    simp only [hh, hc]
  refine ⟨hstep, by rw [hstep]; rfl, by rw [hstep]; rfl, by rw [hstep]; rfl,
    by rw [hstep]; rfl, ?_⟩
  intro r hr hid
  rw [hstep] at hr
  unfold updateStatusDB at hr
  simp only [List.mem_map] at hr
  obtain ⟨r0, _, hr0⟩ := hr
  by_cases hbeq : (r0.id == m.id) = true
  · rw [if_pos hbeq] at hr0
    rw [← hr0]
  · rw [if_neg hbeq] at hr0
    subst hr0
    exact absurd (beq_iff_eq.mpr hid) hbeq

/-- Witness for C4: the amended theorem applied at the concrete fixture. -/
theorem C4_poll_failure_sets_failed_witness :
    updateDownloadStatusStep failClient 0 c4Db c4Media
      = updateStatusDB c4Db c4Media.id MediaStatus.failed :=
  (C4_poll_failure_sets_failed c4Db c4Media failClient 0 "deadbeef" rfl rfl).1

lemma enqueueAllBlocking_spec (items : List Media) :
    ∀ buf : List Media,
      (buf.length + (items.filter Media.autoDownload).length ≤ queueCapacity →
        enqueueAllBlocking buf items = some (buf ++ items.filter Media.autoDownload))
      ∧ (queueCapacity ≤ buf.length → (∃ m ∈ items, m.autoDownload = true) →
        enqueueAllBlocking buf items = none) := by
  induction items with
  | nil =>
    intro buf
    refine ⟨fun _ => by simp [enqueueAllBlocking], fun _ hex => ?_⟩
    obtain ⟨m, hm, _⟩ := hex
    exact absurd hm (List.not_mem_nil m)
  | cons m rest ih =>
    intro buf
    constructor
    · intro hcap
      by_cases ha : m.autoDownload = true
      · rw [List.filter_cons_of_pos ha] at hcap ⊢
        have hlt : buf.length < queueCapacity := by
          simp only [List.length_cons] at hcap
          omega
        have hcap2 : (buf ++ [m]).length + (rest.filter Media.autoDownload).length
            ≤ queueCapacity := by
          simp only [List.length_append, List.length_singleton, List.length_cons,
            List.length_nil] at hcap ⊢
          omega
        have hrec := (ih (buf ++ [m])).1 hcap2
        simp only [enqueueAllBlocking, ha, if_true, chanTrySend, if_pos hlt, hrec,
          List.append_assoc, List.singleton_append]
      · rw [List.filter_cons_of_neg (by simp [ha])] at hcap ⊢
        simp only [enqueueAllBlocking, ha, if_false, Bool.false_eq_true]
        exact (ih buf).1 hcap
    · intro hfull hex
      by_cases ha : m.autoDownload = true
      · simp only [enqueueAllBlocking, ha, if_true, chanTrySend, if_neg (Nat.not_lt.mpr hfull)]
      · obtain ⟨m', hm', ha'⟩ := hex
        rcases List.mem_cons.mp hm' with heq | hmem
        · exact absurd (heq ▸ ha') ha
        · simp only [enqueueAllBlocking, ha, if_false, Bool.false_eq_true]
          exact (ih buf).2 hfull ⟨m', hmem, ha'⟩

lemma retryEnqueueLoop_blocks (items : List Media) :
    ∀ (db : DB) (buf : List Media), queueCapacity ≤ buf.length →
      (∃ m ∈ items, m.autoDownload = true) → retryEnqueueLoop db buf items = none := by
  induction items with
  | nil =>
    intro _ _ _ hex
    obtain ⟨m, hm, _⟩ := hex
    exact absurd hm (List.not_mem_nil m)
  | cons m rest ih =>
    intro db buf hfull hex
    by_cases ha : m.autoDownload = true
    · simp only [retryEnqueueLoop, ha, if_true, chanTrySend, if_neg (Nat.not_lt.mpr hfull)]
    · obtain ⟨m', hm', ha'⟩ := hex
      rcases List.mem_cons.mp hm' with heq | hmem
      · exact absurd (heq ▸ ha') ha
      · simp only [retryEnqueueLoop, ha, if_false, Bool.false_eq_true]
        exact ih db buf hfull ⟨m', hmem, ha'⟩

/-- C7 amended: the scheduler enqueues with a plain blocking channel send
(there is no select/default in `processPendingMedia` or
`retryFailedDownloads`).  While the 100-slot queue has room for every
eligible item, a tick appends them in order; but when the queue is full
and an eligible item exists, the tick blocks on the send (`none`) instead
of dropping the enqueue and leaving the queue unchanged. -/
theorem C7_enqueue_blocking_semantics (db : DB) (buf : List Media) :
    (∀ items : List Media,
      buf.length + (items.filter Media.autoDownload).length ≤ queueCapacity →
        enqueueAllBlocking buf items = some (buf ++ items.filter Media.autoDownload))
    ∧ (queueCapacity ≤ buf.length →
        (∃ m ∈ getByStatus db MediaStatus.pending ++ getByStatus db MediaStatus.failed,
          m.autoDownload = true) →
        processPendingMedia db buf = none)
    ∧ (queueCapacity ≤ buf.length →
        (∃ m ∈ getByStatus db MediaStatus.failed, m.autoDownload = true) →
        retryFailedDownloads db buf = none) := by
  refine ⟨fun items hcap => (enqueueAllBlocking_spec items buf).1 hcap, ?_, ?_⟩
  · intro hfull hex
    unfold processPendingMedia
    exact (enqueueAllBlocking_spec _ buf).2 hfull hex
  · intro hfull hex
    unfold retryFailedDownloads
    exact retryEnqueueLoop_blocks _ db buf hfull hex

/-- Witness for C7: with room the item is appended; with the queue full
both scheduler tasks block. -/
theorem C7_enqueue_blocking_semantics_witness :
    enqueueAllBlocking [] [c7Pending] = some [c7Pending]
    ∧ processPendingMedia c7Db c7FullBuf = none
    ∧ retryFailedDownloads c7DbFailed c7FullBuf = none :=
  ⟨(C7_enqueue_blocking_semantics c7Db []).1 [c7Pending] (by decide),
   (C7_enqueue_blocking_semantics c7Db c7FullBuf).2.1 (by decide) (by decide),
   (C7_enqueue_blocking_semantics c7DbFailed c7FullBuf).2.2 (by decide) (by decide)⟩

/-- C8 amended: the cleanup task is a no-op when both retention
thresholds are disabled; and for a downloaded media carrying a torrent
hash it removes the torrent and archives the row iff the days threshold is
enabled and exceeded or the ratio threshold is enabled and met — but only
when the media additionally carries a non-null completed_at (the source
guards on `media.CompletedAt != nil`; see the counterexample for a
nil-completed_at row the claim would have cleaned). -/
theorem C8_cleanup_retention
    (cfg : AutomationCfg) (m : Media) (st : TorrentStatusGo)
    (client : String → Option TorrentStatusGo) (rok : String → Bool)
    (now cAt : Int) (h : String) :
    (cfg.keepTorrentsForDays ≤ 0 ∧ cfg.keepTorrentsSeedRatioVal ≤ 0 →
      ∀ db, cleanupCompletedTorrents cfg db client rok now = (db, []))
    ∧ (m.status = MediaStatus.downloaded → m.torrentHash = some h →
       m.completedAt = some cAt → client h = some st → rok h = true →
       cleanupCompletedTorrents cfg { media := [m], shows := [], seasons := [], episodes := [] }
           client rok now =
         (if (0 < cfg.keepTorrentsForDays ∧ cAt < now - cfg.keepTorrentsForDays)
             ∨ (0 < cfg.keepTorrentsSeedRatioVal
                 ∧ cfg.keepTorrentsSeedRatioVal ≤ st.uploadRatioVal) then
            ({ media := [{ m with status := MediaStatus.archived }], shows := [], seasons := [],
               episodes := [] }, [h])
          else ({ media := [m], shows := [], seasons := [], episodes := [] }, []))) := by
  constructor
  · intro hdis db
    unfold cleanupCompletedTorrents
    rw [if_pos hdis]
  · intro hst hhash hcomp hcl hrok
    unfold cleanupCompletedTorrents
    by_cases hdis : cfg.keepTorrentsForDays ≤ 0 ∧ cfg.keepTorrentsSeedRatioVal ≤ 0
    · rw [if_pos hdis, if_neg]
      rintro (⟨h1, _⟩ | ⟨h1, _⟩)
      · omega
      · exact absurd h1 (not_lt.mpr hdis.2)
    · rw [if_neg hdis]
      simp only [getByStatus, List.filter_cons, hst, beq_self_eq_true, if_true,
        List.filter_nil, List.foldl_cons, List.foldl_nil, hcomp, hhash, hcl, hrok]
      by_cases hdel : (0 < cfg.keepTorrentsForDays ∧ cAt < now - cfg.keepTorrentsForDays)
          ∨ (0 < cfg.keepTorrentsSeedRatioVal
              ∧ cfg.keepTorrentsSeedRatioVal ≤ st.uploadRatioVal)
      · rw [if_pos hdel, if_pos hdel]
        simp [updateStatusDB, hhash, hcomp]
      · rw [if_neg hdel, if_neg hdel]

/-- Witness for C8: the fixture row (downloaded, hashed, with a non-null
completed_at here) is archived when the ratio threshold is met. -/
theorem C8_cleanup_retention_witness :
    cleanupCompletedTorrents c8Cfg
        { media := [{ c8Media with completedAt := some 50 }], shows := [], seasons := [],
          episodes := [] } c8Client (fun _ => true) 100 =
      ({ media := [{ c8Media with completedAt := some 50, status := MediaStatus.archived }],
         shows := [], seasons := [], episodes := [] }, ["cafe"]) := by
  have hthm := (C8_cleanup_retention c8Cfg { c8Media with completedAt := some 50 }
    { name := "t", progress := 1, isCompleted := true, downloadDir := "/dl",
      uploadRatioVal := 3 } c8Client (fun _ => true) 100 50 "cafe").2
    rfl rfl rfl rfl rfl
  rw [hthm]
  rw [if_pos (Or.inr (by constructor <;> norm_num [c8Cfg]))]

/-- C9 amended: the iff between a non-null completed_at and the
downloaded state does not survive every transition.  What holds is: the
tracker's movie completion writes status downloaded together with
completed_at = now; the show-progress recomputation always writes a NULL
completed_at (even when every episode is downloaded, as the
counterexample shows); and archiving a row preserves its completed_at
while the status leaves downloaded. -/
theorem C9_completed_at_transitions
    (db : DB) (m : Media) (client : String → Option TorrentStatusGo)
    (now : Int) (h : String) (st : TorrentStatusGo)
    (hh : m.torrentHash = some h) (hc : client h = some st) (hcomp : st.isCompleted = true)
    (hmov : m.type = MediaType.movie) (hdl : m.status = MediaStatus.downloading) :
    (∀ r ∈ (updateDownloadStatusStep client now db m).media,
        r.id = m.id → r.status = MediaStatus.downloaded ∧ r.completedAt = some now)
    ∧ (∀ (db2 : DB) (mid : Int) (sh : TVShowAgg), getTVShowByMediaID db2 mid = some sh →
        updateShowProgress db2 mid =
          updateProgressDB db2 mid (updateShowProgressCompute sh).1
            (updateShowProgressCompute sh).2 none)
    ∧ (∀ (db2 : DB) (mid : Int) (st2 : MediaStatus) (pr : ℚ),
        ∀ r ∈ (updateProgressDB db2 mid st2 pr none).media, r.id = mid → r.completedAt = none)
    ∧ (∀ (db2 : DB) (id2 : Int),
        (updateStatusDB db2 id2 MediaStatus.archived).media.map (fun r => r.completedAt)
          = db2.media.map (fun r => r.completedAt)) := by
  have hstep : updateDownloadStatusStep client now db m
      = updateProgressDB db m.id MediaStatus.downloaded 1 (some now) := by
    unfold updateDownloadStatusStep
    simp only [hh, hc, hcomp, hmov, hdl]
    rfl
  refine ⟨?_, ?_, ?_, ?_⟩
  · intro r hr hid
    rw [hstep] at hr
    unfold updateProgressDB at hr
    simp only [List.mem_map] at hr
    obtain ⟨r0, _, hr0⟩ := hr
    by_cases hbeq : (r0.id == m.id) = true
    · rw [if_pos hbeq] at hr0
      rw [← hr0]
      exact ⟨rfl, rfl⟩
    · rw [if_neg hbeq] at hr0
      subst hr0
      exact absurd (beq_iff_eq.mpr hid) hbeq
  · intro db2 mid sh hsh
    unfold updateShowProgress
    rw [hsh]
  · intro db2 mid st2 pr r hr hid
    unfold updateProgressDB at hr
    simp only [List.mem_map] at hr
    obtain ⟨r0, _, hr0⟩ := hr
    by_cases hbeq : (r0.id == mid) = true
    · rw [if_pos hbeq] at hr0
      rw [← hr0]
    · rw [if_neg hbeq] at hr0
      subst hr0
      exact absurd (beq_iff_eq.mpr hid) hbeq
  · intro db2 id2
    unfold updateStatusDB
    simp only [List.map_map]
    induction db2.media with
    | nil => rfl
    | cons r l ihl =>
      simp only [List.map_cons, Function.comp]
      by_cases hbeq : (r.id == id2) = true
      · rw [if_pos hbeq]
        simp only [List.map_map] at ihl
        rw [ihl]
      · rw [if_neg hbeq]
        simp only [List.map_map] at ihl
        rw [ihl]

/-- Witness for C9: the movie-completion transition at the concrete
fixture writes downloaded with a non-null completed_at on the updated
row. -/
theorem C9_completed_at_transitions_witness :
    c9ResultRow.status = MediaStatus.downloaded ∧ c9ResultRow.completedAt = some 500 :=
  (C9_completed_at_transitions c4Db c4Media c9Client 500 "deadbeef"
    { name := "n", progress := 1, isCompleted := true, downloadDir := "/dl",
      uploadRatioVal := 0 } rfl rfl rfl rfl rfl).1 c9ResultRow (by decide) (by decide)

lemma epAccum_spec (acc : Nat × Nat × Nat × Nat) (e : EpisodeRow) :
    epAccum acc e =
      (acc.1 + if pDownloadable e then 1 else 0,
       acc.2.1 + if pDownloadedIn e then 1 else 0,
       acc.2.2.1 + if pPendingOrDl e then 1 else 0,
       acc.2.2.2 + if pTba e then 1 else 0) := by
  obtain ⟨a, b, c, d⟩ := acc
  rcases e with ⟨eid, sid, en, est⟩
  cases est <;> rfl

lemma foldl_epAccum (eps : List EpisodeRow) :
    ∀ acc : Nat × Nat × Nat × Nat,
      eps.foldl epAccum acc =
        (acc.1 + eps.countP pDownloadable, acc.2.1 + eps.countP pDownloadedIn,
         acc.2.2.1 + eps.countP pPendingOrDl, acc.2.2.2 + eps.countP pTba) := by
  induction eps with
  | nil => intro acc; simp
  | cons e rest ih =>
    intro acc
    rw [List.foldl_cons, ih, epAccum_spec]
    simp only [List.countP_cons, Prod.ext_iff]
    refine ⟨?_, ?_, ?_, ?_⟩ <;> split_ifs <;> omega

lemma seasonsFoldl_counts (l : List SeasonAgg) :
    ∀ acc : Nat × Nat × Nat × Nat,
      l.foldl (fun acc season => season.episodes.foldl epAccum acc) acc =
        (acc.1 + ((l.map (fun s => s.episodes)).flatten).countP pDownloadable,
         acc.2.1 + ((l.map (fun s => s.episodes)).flatten).countP pDownloadedIn,
         acc.2.2.1 + ((l.map (fun s => s.episodes)).flatten).countP pPendingOrDl,
         acc.2.2.2 + ((l.map (fun s => s.episodes)).flatten).countP pTba) := by
  induction l with
  | nil => intro acc; simp
  | cons s rest ih =>
    intro acc
    rw [List.foldl_cons, foldl_epAccum, ih]
    simp only [List.map_cons, List.flatten_cons, List.countP_append, Prod.ext_iff]
    refine ⟨by omega, by omega, by omega, by omega⟩

lemma showProgressCounts_spec (sh : TVShowAgg) :
    showProgressCounts sh =
      ((allEpisodes sh).countP pDownloadable, (allEpisodes sh).countP pDownloadedIn,
       (allEpisodes sh).countP pPendingOrDl, (allEpisodes sh).countP pTba) := by
  unfold showProgressCounts allEpisodes
  rw [seasonsFoldl_counts]
  simp

/-- The nested counter of downloaded-and-downloadable episodes coincides
with the plain count of downloaded episodes (downloaded is neither
skipped nor tba). -/
lemma pDownloadedIn_eq_downloaded :
    pDownloadedIn = fun e => e.status == MediaStatus.downloaded := by
  funext e
  rcases e with ⟨eid, sid, en, est⟩
  cases est <;> rfl

lemma updateShowProgressCompute_spec (sh : TVShowAgg) :
    updateShowProgressCompute sh =
      ((if (allEpisodes sh).countP pPendingOrDl = 0 then
          if 0 < (allEpisodes sh).countP pTba ∨ strLower sh.statusStr = "running" then
            MediaStatus.monitoring
          else MediaStatus.downloaded
        else MediaStatus.downloading),
       (if 0 < (allEpisodes sh).countP pDownloadable then
          (((allEpisodes sh).countP pDownloadedIn : ℚ) /
            ((allEpisodes sh).countP pDownloadable : ℚ))
        else 0)) := by
  unfold updateShowProgressCompute
  rw [showProgressCounts_spec]

/-- C5: whenever the show's derived state is recomputed, the progress is
the downloaded count over the count of episodes outside skipped/tba (0
when that denominator is 0), and the status is downloading when any
episode is pending or downloading, else monitoring when the upstream show
status is "running" or tba episodes remain, else downloaded; the write
applies exactly these values (and a NULL completed_at) to the media row. -/
theorem C5_show_progress_and_status (sh : TVShowAgg) :
    (updateShowProgressCompute sh).2 =
      (if 0 < (allEpisodes sh).countP pDownloadable then
         (((allEpisodes sh).countP (fun e => e.status == MediaStatus.downloaded) : ℚ) /
           ((allEpisodes sh).countP pDownloadable : ℚ))
       else 0)
    ∧ (updateShowProgressCompute sh).1 =
      (if (allEpisodes sh).any pPendingOrDl then MediaStatus.downloading
       else if strLower sh.statusStr = "running" ∨ (allEpisodes sh).any pTba then
         MediaStatus.monitoring
       else MediaStatus.downloaded)
    ∧ (∀ (db : DB) (mid : Int), getTVShowByMediaID db mid = some sh →
        updateShowProgress db mid =
          updateProgressDB db mid (updateShowProgressCompute sh).1
            (updateShowProgressCompute sh).2 none) := by
  have hpnd : ((allEpisodes sh).countP pPendingOrDl = 0)
      ↔ ¬((allEpisodes sh).any pPendingOrDl = true) := by
    rw [List.countP_eq_zero, List.any_eq_true]
    push_neg
    rfl
  have htba : (0 < (allEpisodes sh).countP pTba) ↔ ((allEpisodes sh).any pTba = true) := by
    rw [List.countP_pos_iff, List.any_eq_true]
  refine ⟨?_, ?_, ?_⟩
  · rw [updateShowProgressCompute_spec]
    simp only [pDownloadedIn_eq_downloaded]
  · rw [updateShowProgressCompute_spec]
    by_cases hp : (allEpisodes sh).any pPendingOrDl = true
    · rw [if_pos hp, if_neg (by rw [hpnd]; exact fun hc => hc hp)]
    · rw [if_neg hp, if_pos (hpnd.mpr hp)]
      by_cases hr : strLower sh.statusStr = "running"
      · rw [if_pos (Or.inr hr), if_pos (Or.inl hr)]
      · by_cases ht : (allEpisodes sh).any pTba = true
        · rw [if_pos (Or.inl (htba.mpr ht)), if_pos (Or.inr ht)]
        · have h1 : ¬(0 < (allEpisodes sh).countP pTba ∨ strLower sh.statusStr = "running") := by
            rintro (hc | hc)
            · exact ht (htba.mp hc)
            · exact hr hc
          have h2 : ¬(strLower sh.statusStr = "running"
              ∨ (allEpisodes sh).any pTba = true) := by
            rintro (hc | hc)
            · exact hr hc
            · exact ht hc
          rw [if_neg h1, if_neg h2]
  · intro db mid hsh
    unfold updateShowProgress
    rw [hsh]

lemma RESOLUTION_RANK_get_nonneg (q : String) : 0 ≤ RESOLUTION_RANK_get q := by
  unfold RESOLUTION_RANK_get
  cases hf : RESOLUTION_RANK_assoc.find? (fun kv => kv.1 == q) with
  | none => simp
  | some kv =>
    have hm : kv ∈ RESOLUTION_RANK_assoc := List.mem_of_find?_eq_some hf
    simp only [RESOLUTION_RANK_assoc, List.mem_cons, List.not_mem_nil, or_false] at hm
    rcases hm with h | h | h | h | h | h | h <;> subst h <;> norm_num

lemma getResolutionRankWalk_find (lt : String) (l : List String) :
    getResolutionRankWalk lt l =
      (match l.find? (fun res => (RESOLUTION_SYNONYMS res).any
          (fun syn => goContains lt (strLower syn))) with
       | some res => RESOLUTION_RANK_get res
       | none => -1) := by
  induction l with
  | nil => rfl
  | cons r rest ih =>
    unfold getResolutionRankWalk
    rw [List.find?_cons]
    by_cases hm : (RESOLUTION_SYNONYMS r).any (fun syn => goContains lt (strLower syn)) = true
    · simp [hm]
    · simp only [hm, if_false, Bool.false_eq_true]
      rw [ih]

lemma getResolutionRankWalk_neg_one (lt : String) (l : List String) :
    getResolutionRankWalk lt l = -1 ↔
      ∀ res ∈ l, ∀ syn ∈ RESOLUTION_SYNONYMS res, goContains lt (strLower syn) = false := by
  induction l with
  | nil => simp [getResolutionRankWalk]
  | cons r rest ih =>
    unfold getResolutionRankWalk
    by_cases hm : (RESOLUTION_SYNONYMS r).any (fun syn => goContains lt (strLower syn)) = true
    · rw [if_pos hm]
      constructor
      · intro hrank
        exact absurd hrank (by have := RESOLUTION_RANK_get_nonneg r; omega)
      · intro hall
        obtain ⟨syn, hsyn, hcontains⟩ := List.any_eq_true.mp hm
        have := hall r (List.mem_cons_self r rest) syn hsyn
        rw [this] at hcontains
        exact absurd hcontains (by simp)
    · rw [if_neg hm, ih]
      constructor
      · intro hall res hres syn hsyn
        rcases List.mem_cons.mp hres with heq | hmem
        · subst heq
          have hmf : (RESOLUTION_SYNONYMS res).any (fun syn => goContains lt (strLower syn))
              = false := Bool.eq_false_iff.mpr hm
          have hns := List.any_eq_false.mp hmf syn hsyn
          exact Bool.eq_false_iff.mpr hns
        · exact hall res hmem syn hsyn
      · intro hall res hres syn hsyn
        exact hall res (List.mem_cons_of_mem r hres) syn hsyn

/-- C6: a candidate's resolution is the first supported resolution, from
highest to lowest, with a synonym occurring in the lowercased title; the
quality filter keeps a candidate iff that rank lies within
[rank(minQuality), rank(maxQuality)]; rank `-1` (no synonym found, which
characterises exactly the titles with no recognisable resolution) always
falls below the window, so such candidates are always dropped. -/
theorem C6_quality_window (results : List IndexerResult) (minQ maxQ : String) :
    (∀ r : IndexerResult, r ∈ filterByQuality results minQ maxQ ↔
      (r ∈ results ∧ RESOLUTION_RANK_get minQ ≤ getResolutionRank r.title
        ∧ getResolutionRank r.title ≤ RESOLUTION_RANK_get maxQ))
    ∧ (∀ title : String, getResolutionRank title =
        (match SUPPORTED_RESOLUTIONS.find? (fun res => (RESOLUTION_SYNONYMS res).any
            (fun syn => goContains (strLower title) (strLower syn))) with
         | some res => RESOLUTION_RANK_get res
         | none => -1))
    ∧ (∀ title : String, getResolutionRank title = -1 ↔
        ∀ res ∈ SUPPORTED_RESOLUTIONS, ∀ syn ∈ RESOLUTION_SYNONYMS res,
          goContains (strLower title) (strLower syn) = false)
    ∧ (∀ r : IndexerResult, getResolutionRank r.title = -1 →
        r ∉ filterByQuality results minQ maxQ) := by
  have hmem : ∀ r : IndexerResult, r ∈ filterByQuality results minQ maxQ ↔
      (r ∈ results ∧ RESOLUTION_RANK_get minQ ≤ getResolutionRank r.title
        ∧ getResolutionRank r.title ≤ RESOLUTION_RANK_get maxQ) := by
    intro r
    unfold filterByQuality
    rw [List.mem_filter]
    simp [Bool.and_eq_true, decide_eq_true_eq]
  refine ⟨hmem, fun title => getResolutionRankWalk_find (strLower title) SUPPORTED_RESOLUTIONS,
    fun title => getResolutionRankWalk_neg_one (strLower title) SUPPORTED_RESOLUTIONS, ?_⟩
  intro r hneg hmemf
  have := ((hmem r).mp hmemf).2.1
  have := RESOLUTION_RANK_get_nonneg minQ
  omega

/-- Witness for C2: a movie sharing its tmdb id with an existing movie is
rejected, while a non-duplicate insert is persisted and mapped to 201. -/
theorem C2_create_uniqueness_amended_witness :
    (∃ e, mediaRepoCreate [c2Movie1] c2Movie2 = Except.error e)
    ∧ mediaRepoCreate [c2Anime1] c2Anime2 = Except.ok [c2Anime1, c2Anime2]
    ∧ addMediaHTTPStatus (mediaRepoCreate [c2Anime1] c2Anime2) = 201 := by
  refine ⟨(C2_create_uniqueness_amended [c2Movie1] c2Movie2).1.mpr (by decide),
    (C2_create_uniqueness_amended [c2Anime1] c2Anime2).2.1 (by decide), ?_⟩
  rw [(C2_create_uniqueness_amended [c2Anime1] c2Anime2).2.2]
  decide

/-- Witness for C5: the recomputation applied to the concrete C9 fixture
show. -/
theorem C5_show_progress_and_status_witness :
    updateShowProgress c9Db 20 =
      updateProgressDB c9Db 20 (updateShowProgressCompute c5Show).1
        (updateShowProgressCompute c5Show).2 none :=
  (C5_show_progress_and_status c5Show).2.2 c9Db 20 (by decide)

/-- Witness for C6: a candidate with no recognisable resolution is
dropped by the quality filter at a concrete input. -/
theorem C6_quality_window_witness :
    getResolutionRank "My Show S01E01 WEB" = -1
    ∧ c6NoRes ∉ filterByQuality [c6NoRes] "720p" "1080p" :=
  ⟨by decide, (C6_quality_window [c6NoRes] "720p" "1080p").2.2.2 c6NoRes (by decide)⟩

end Reel
